import Mathlib

/-!
Shallow embedding of src/vercel.py, a Flask app tracking cricket
leaderboards ("orange cap" runs, "purple cap" wickets) per league,
persisted in one JSON document.  Strings are Lean strings (ASCII model
of Python text operations), the JSON store is a structure of
association lists preserving insertion order (Python dicts preserve
insertion order), timestamps are integers (seconds), and every HTTP
handler is a pure function from store, session and form fields to a
result record holding the new store, the new session, the flash
message and the redirect target.
-/

/-- ASCII whitespace, as matched by Python str.strip and the regex class \s. -/
def isPyWs (c : Char) : Bool :=
  c = ' ' || c = '\t' || c = '\n' || c = '\r' || c = '\x0b' || c = '\x0c'

/-- Python str.strip(): remove leading and trailing whitespace. -/
def stripWs (l : List Char) : List Char :=
  ((l.dropWhile isPyWs).reverse.dropWhile isPyWs).reverse

/-- Python str.strip() on a whole string. -/
def pyStrip (s : String) : String := String.mk (stripWs s.data)

/-- Python str.lower(), ASCII fragment. -/
def pyLowerChar (c : Char) : Char :=
  if 'A' ≤ c && c ≤ 'Z' then Char.ofNat (c.toNat + 32) else c

/-- Characters kept by the regex sub of vercel.py line 62: [a-z0-9\s-]. -/
def isKeptChar (c : Char) : Bool :=
  ('a' ≤ c && c ≤ 'z') || ('0' ≤ c && c ≤ '9') || isPyWs c || c = '-'

/-- Helper for the regex sub of vercel.py line 63: the flag records
whether the previous character was whitespace, so each maximal
whitespace run emits exactly one hyphen. -/
def collapseWsAux : Bool → List Char → List Char
  | _, [] => []
  | prevWs, c :: rest =>
    if isPyWs c then
      if prevWs then collapseWsAux true rest
      else '-' :: collapseWsAux true rest
    else c :: collapseWsAux false rest

/-- The regex sub of vercel.py line 63: each maximal whitespace run becomes one hyphen. -/
def collapseWs (l : List Char) : List Char := collapseWsAux false l

/-- The normalisation pipeline of _slugify before the fallback:
strip, lowercase, drop disallowed characters, whitespace runs to hyphens,
truncate to 40 characters (vercel.py lines 60-64). -/
def slugCore (l : List Char) : List Char :=
  (collapseWs (((stripWs l).map pyLowerChar).filter isKeptChar)).take 40

/-- vercel.py _slugify: the normalised name, or "league" when it is empty
(Python value[:40] or "league"). -/
def _slugify (s : String) : String :=
  let v := slugCore s.data
  if v = [] then "league" else String.mk v

/-- Characters that can occur in a nonempty slug: lowercase letters,
digits and hyphens (proof-side classification of _slugify output). -/
def isSlugChar (c : Char) : Bool :=
  ('a' ≤ c && c ≤ 'z') || ('0' ≤ c && c ≤ '9') || c = '-'

/-- ASCII decimal digit. -/
def isDigitChar (c : Char) : Bool := '0' ≤ c && c ≤ '9'

/-- Digits of a Python int literal after the first one: digits with single
underscores allowed between digits (no trailing or doubled underscore). -/
def runOk : List Char → Bool
  | [] => true
  | c :: rest =>
    if isDigitChar c then runOk rest
    else if c = '_' then
      match rest with
      | [] => false
      | d :: rest2 => isDigitChar d && runOk rest2
    else false

/-- A valid unsigned Python decimal digit run: nonempty, starts with a digit. -/
def digitsOk (l : List Char) : Bool :=
  match l with
  | [] => false
  | c :: _ => isDigitChar c && runOk l

/-- Numeric value of a digit run, skipping underscores. -/
def digitsVal (l : List Char) : Nat :=
  l.foldl (fun acc c => if c = '_' then acc else acc * 10 + (c.toNat - 48)) 0

/-- Python int(str): strip whitespace, optional sign, decimal digits. -/
def pyIntOfString (s : String) : Option Int :=
  match stripWs s.data with
  | '+' :: rest => if digitsOk rest then some (Int.ofNat (digitsVal rest)) else none
  | '-' :: rest => if digitsOk rest then some (-(Int.ofNat (digitsVal rest))) else none
  | l => if digitsOk l then some (Int.ofNat (digitsVal l)) else none

/-- vercel.py _parse_int: (True, value) on success, (False, 0) on failure. -/
def _parse_int (s : String) : Bool × Int :=
  match pyIntOfString s with
  | some n => (true, n)
  | none => (false, 0)

/-- One entry of the per-league delete log (vercel.py _append_delete_log):
the JSON keys are player, category, value, ts. -/
structure LogEntry where
  player : String
  category : String
  value : Int
  ts : String
  deriving DecidableEq

/-- One league record as stored under data["leagues"][league_id]. -/
structure League where
  name : String
  admin_password : String
  orange : List (String × Int)
  purple : List (String × Int)
  delete_logs : List LogEntry
  deriving DecidableEq

/-- The whole JSON document: leagues plus the rate_limits map
(client ip to last creation timestamp). -/
structure Store where
  leagues : List (String × League)
  rate_limits : List (String × Int)
  deriving DecidableEq

/-- The Flask session cookie: selected league and authorisation flags.
Absent keys read as none / false, matching bool(session.get(...)). -/
structure Session where
  league_id : Option String
  is_admin : Bool
  is_master : Bool
  deriving DecidableEq

/-- Kind of a flash message. -/
inductive FlashKind where
  | success
  | error
  | info
  deriving DecidableEq

/-- Result of one handler: new store, new session, at most one flash
message, and the redirect target ("home", "orange" or "purple"). -/
structure HResult where
  store : Store
  session : Session
  flash : Option (String × FlashKind)
  redirect : String
  deriving DecidableEq

/-- Python dict lookup d.get(k) on an insertion-ordered association list. -/
def alGet {α : Type} (l : List (String × α)) (k : String) : Option α :=
  (l.find? (fun p => p.1 == k)).map Prod.snd

/-- Python k in d. -/
def alHas {α : Type} (l : List (String × α)) (k : String) : Bool :=
  l.any (fun p => p.1 == k)

/-- Python d[k] = v: overwrite in place when present, else append
(dicts keep insertion order). -/
def alSet {α : Type} (l : List (String × α)) (k : String) (v : α) : List (String × α) :=
  if alHas l k then l.map (fun p => if p.1 == k then (k, v) else p) else l ++ [(k, v)]

/-- Python d.pop(k). -/
def alErase {α : Type} (l : List (String × α)) (k : String) : List (String × α) :=
  l.filter (fun p => !(p.1 == k))

/-- Python d[k] = f(d[k]) for a present key (used for the += updates). -/
def alUpdate {α : Type} (l : List (String × α)) (k : String) (f : α → α) : List (String × α) :=
  l.map (fun p => if p.1 == k then (p.1, f p.2) else p)

/-- vercel.py line 15. -/
def MASTER_ADMIN_PASSWORD : String := "Iam@cirs"

/-- vercel.py _get_league combined with the check of _require_league:
the league_id of the session must be set, truthy (nonempty), and present in
the store. -/
def _get_league (st : Store) (sess : Session) : Option (String × League) :=
  match sess.league_id with
  | none => none
  | some lid =>
    if lid = "" then none
    else match alGet st.leagues lid with
      | none => none
      | some lg => some (lid, lg)

/-- The rate-limit test of vercel.py lines 117-125: a recorded timestamp
that is truthy (nonzero) and less than 3600 seconds before now blocks
creation.  A stored timestamp of exactly 0 is falsy in Python and skips
the check. -/
def rateLimited (st : Store) (ip : String) (now : Int) : Bool :=
  match alGet st.rate_limits ip with
  | none => false
  | some ts => if ts = 0 then false else decide (now - ts < 3600)

/-- vercel.py league_create (lines 101-146). -/
def league_create (st : Store) (sess : Session)
    (league_name admin_password master_password ip : String) (now : Int) : HResult :=
  let name := pyStrip league_name
  let password := pyStrip admin_password
  let master0 := pyStrip master_password
  if name = "" ∨ password = "" then
    ⟨st, sess, some ("Enter a league name and admin password.", FlashKind.error), "home"⟩
  else
    let master := if MASTER_ADMIN_PASSWORD = "" then "" else master0
    if master ≠ "" ∧ master ≠ MASTER_ADMIN_PASSWORD then
      ⟨st, sess, some ("Master password is incorrect.", FlashKind.error), "home"⟩
    else if master = "" ∧ rateLimited st ip now then
      ⟨st, sess, some ("League creation limited to 1 per hour. Try again later.", FlashKind.error), "home"⟩
    else
      let league_id := _slugify name
      if alHas st.leagues league_id then
        ⟨st, sess, some ("League already exists. Choose a different name.", FlashKind.error), "home"⟩
      else
        let leagues2 := alSet st.leagues league_id ⟨name, password, [], [], []⟩
        let rl2 := if master = "" then alSet st.rate_limits ip now else st.rate_limits
        ⟨⟨leagues2, rl2⟩, ⟨some league_id, true, decide (master ≠ "")⟩,
          some ("League created. Admin access granted.", FlashKind.success), "orange"⟩

/-- vercel.py league_login (lines 149-176). -/
def league_login (st : Store) (sess : Session) (league_id role password : String) : HResult :=
  match alGet st.leagues league_id with
  | none => ⟨st, sess, some ("League not found.", FlashKind.error), "home"⟩
  | some league =>
    let sess1 : Session := { sess with league_id := some league_id }
    if role = "admin" then
      let is_master : Bool := (!(MASTER_ADMIN_PASSWORD == "")) && (password == MASTER_ADMIN_PASSWORD)
      if password = league.admin_password ∨ is_master = true then
        ⟨st, { sess1 with is_admin := true, is_master := is_master },
          some ("Admin access granted.", FlashKind.success), "orange"⟩
      else
        ⟨st, { sess1 with league_id := none },
          some ("Incorrect Password", FlashKind.error), "home"⟩
    else
      ⟨st, { sess1 with is_admin := false, is_master := false },
        some ("User access granted (view-only).", FlashKind.info), "orange"⟩

/-- vercel.py league_delete (lines 179-200). -/
def league_delete (st : Store) (sess : Session) (league_id password : String) : HResult :=
  match alGet st.leagues league_id with
  | none => ⟨st, sess, some ("League not found.", FlashKind.error), "home"⟩
  | some league =>
    let is_master : Bool := (!(MASTER_ADMIN_PASSWORD == "")) && (password == MASTER_ADMIN_PASSWORD)
    if password ≠ league.admin_password ∧ is_master = false then
      ⟨st, sess, some ("Incorrect Password", FlashKind.error), "home"⟩
    else
      ⟨⟨alErase st.leagues league_id, st.rate_limits⟩,
        if sess.league_id = some league_id then ⟨none, false, false⟩ else sess,
        some ("League deleted.", FlashKind.success), "home"⟩

/-- vercel.py logout (lines 203-206): clear session, no flash. -/
def logout (st : Store) (_sess : Session) : HResult :=
  ⟨st, ⟨none, false, false⟩, none, "home"⟩

/-- vercel.py orange_add (lines 254-276). -/
def orange_add (st : Store) (sess : Session) (nameF valueF : String) : HResult :=
  if sess.is_admin = false then
    ⟨st, sess, some ("Admin access required for this action.", FlashKind.error), "orange"⟩
  else match _get_league st sess with
  | none => ⟨st, sess, some ("Select a league to continue.", FlashKind.error), "home"⟩
  | some (lid, league) =>
    let name := pyStrip nameF
    let pr := _parse_int valueF
    if name = "" ∨ pr.1 = false then
      ⟨st, sess, some ("Enter a valid player name and numeric runs.", FlashKind.error), "orange"⟩
    else if alHas league.orange name then
      ⟨st, sess, some ("Player already exists. Use edit to adjust runs.", FlashKind.error), "orange"⟩
    else
      ⟨⟨alSet st.leagues lid { league with orange := alSet league.orange name pr.2 }, st.rate_limits⟩,
        sess, some ("Player added to Orange Cap leaderboard.", FlashKind.success), "orange"⟩

/-- vercel.py orange_edit (lines 279-301). -/
def orange_edit (st : Store) (sess : Session) (nameF deltaF : String) : HResult :=
  if sess.is_admin = false then
    ⟨st, sess, some ("Admin access required for this action.", FlashKind.error), "orange"⟩
  else match _get_league st sess with
  | none => ⟨st, sess, some ("Select a league to continue.", FlashKind.error), "home"⟩
  | some (lid, league) =>
    let name := pyStrip nameF
    let pr := _parse_int deltaF
    if name = "" ∨ pr.1 = false then
      ⟨st, sess, some ("Enter a valid player name and numeric runs to add.", FlashKind.error), "orange"⟩
    else if alHas league.orange name = false then
      ⟨st, sess, some ("Player not found. Add them first.", FlashKind.error), "orange"⟩
    else
      ⟨⟨alSet st.leagues lid { league with orange := alUpdate league.orange name (fun v => v + pr.2) }, st.rate_limits⟩,
        sess, some ("Orange Cap stats updated.", FlashKind.success), "orange"⟩

/-- vercel.py orange_adjust (lines 304-326): same body as orange_edit. -/
def orange_adjust (st : Store) (sess : Session) (nameF deltaF : String) : HResult :=
  if sess.is_admin = false then
    ⟨st, sess, some ("Admin access required for this action.", FlashKind.error), "orange"⟩
  else match _get_league st sess with
  | none => ⟨st, sess, some ("Select a league to continue.", FlashKind.error), "home"⟩
  | some (lid, league) =>
    let name := pyStrip nameF
    let pr := _parse_int deltaF
    if name = "" ∨ pr.1 = false then
      ⟨st, sess, some ("Enter a valid player name and numeric runs to add.", FlashKind.error), "orange"⟩
    else if alHas league.orange name = false then
      ⟨st, sess, some ("Player not found. Add them first.", FlashKind.error), "orange"⟩
    else
      ⟨⟨alSet st.leagues lid { league with orange := alUpdate league.orange name (fun v => v + pr.2) }, st.rate_limits⟩,
        sess, some ("Orange Cap stats updated.", FlashKind.success), "orange"⟩

/-- vercel.py purple_add (lines 329-351). -/
def purple_add (st : Store) (sess : Session) (nameF valueF : String) : HResult :=
  if sess.is_admin = false then
    ⟨st, sess, some ("Admin access required for this action.", FlashKind.error), "purple"⟩
  else match _get_league st sess with
  | none => ⟨st, sess, some ("Select a league to continue.", FlashKind.error), "home"⟩
  | some (lid, league) =>
    let name := pyStrip nameF
    let pr := _parse_int valueF
    if name = "" ∨ pr.1 = false then
      ⟨st, sess, some ("Enter a valid player name and numeric wickets.", FlashKind.error), "purple"⟩
    else if alHas league.purple name then
      ⟨st, sess, some ("Player already exists. Use edit to adjust wickets.", FlashKind.error), "purple"⟩
    else
      ⟨⟨alSet st.leagues lid { league with purple := alSet league.purple name pr.2 }, st.rate_limits⟩,
        sess, some ("Player added to Purple Cap leaderboard.", FlashKind.success), "purple"⟩

/-- vercel.py purple_edit (lines 354-376). -/
def purple_edit (st : Store) (sess : Session) (nameF deltaF : String) : HResult :=
  if sess.is_admin = false then
    ⟨st, sess, some ("Admin access required for this action.", FlashKind.error), "purple"⟩
  else match _get_league st sess with
  | none => ⟨st, sess, some ("Select a league to continue.", FlashKind.error), "home"⟩
  | some (lid, league) =>
    let name := pyStrip nameF
    let pr := _parse_int deltaF
    if name = "" ∨ pr.1 = false then
      ⟨st, sess, some ("Enter a valid player name and numeric wickets to add.", FlashKind.error), "purple"⟩
    else if alHas league.purple name = false then
      ⟨st, sess, some ("Player not found. Add them first.", FlashKind.error), "purple"⟩
    else
      ⟨⟨alSet st.leagues lid { league with purple := alUpdate league.purple name (fun v => v + pr.2) }, st.rate_limits⟩,
        sess, some ("Purple Cap stats updated.", FlashKind.success), "purple"⟩

/-- vercel.py purple_adjust (lines 379-401): same body as purple_edit. -/
def purple_adjust (st : Store) (sess : Session) (nameF deltaF : String) : HResult :=
  if sess.is_admin = false then
    ⟨st, sess, some ("Admin access required for this action.", FlashKind.error), "purple"⟩
  else match _get_league st sess with
  | none => ⟨st, sess, some ("Select a league to continue.", FlashKind.error), "home"⟩
  | some (lid, league) =>
    let name := pyStrip nameF
    let pr := _parse_int deltaF
    if name = "" ∨ pr.1 = false then
      ⟨st, sess, some ("Enter a valid player name and numeric wickets to add.", FlashKind.error), "purple"⟩
    else if alHas league.purple name = false then
      ⟨st, sess, some ("Player not found. Add them first.", FlashKind.error), "purple"⟩
    else
      ⟨⟨alSet st.leagues lid { league with purple := alUpdate league.purple name (fun v => v + pr.2) }, st.rate_limits⟩,
        sess, some ("Purple Cap stats updated.", FlashKind.success), "purple"⟩

/-- vercel.py _append_delete_log (lines 404-410): append one entry and
keep only the last 67 entries. -/
def _append_delete_log (league : League) (player category : String) (value : Int) (tsStr : String) : League :=
  let logs := league.delete_logs ++ [⟨player, category, value, tsStr⟩]
  { league with delete_logs := if logs.length > 67 then logs.drop (logs.length - 67) else logs }

/-- vercel.py orange_delete (lines 413-431). -/
def orange_delete (st : Store) (sess : Session) (nameF tsStr : String) : HResult :=
  if sess.is_admin = false then
    ⟨st, sess, some ("Admin access required for this action.", FlashKind.error), "orange"⟩
  else match _get_league st sess with
  | none => ⟨st, sess, some ("Select a league to continue.", FlashKind.error), "home"⟩
  | some (lid, league) =>
    let name := pyStrip nameF
    if name = "" ∨ alHas league.orange name = false then
      ⟨st, sess, some ("Player not found.", FlashKind.error), "orange"⟩
    else
      let value := (alGet league.orange name).getD 0
      let league2 := _append_delete_log { league with orange := alErase league.orange name } name "Orange Cap" value tsStr
      ⟨⟨alSet st.leagues lid league2, st.rate_limits⟩, sess,
        some ("Player deleted from Orange Cap leaderboard.", FlashKind.success), "orange"⟩

/-- vercel.py purple_delete (lines 434-452). -/
def purple_delete (st : Store) (sess : Session) (nameF tsStr : String) : HResult :=
  if sess.is_admin = false then
    ⟨st, sess, some ("Admin access required for this action.", FlashKind.error), "purple"⟩
  else match _get_league st sess with
  | none => ⟨st, sess, some ("Select a league to continue.", FlashKind.error), "home"⟩
  | some (lid, league) =>
    let name := pyStrip nameF
    if name = "" ∨ alHas league.purple name = false then
      ⟨st, sess, some ("Player not found.", FlashKind.error), "purple"⟩
    else
      let value := (alGet league.purple name).getD 0
      let league2 := _append_delete_log { league with purple := alErase league.purple name } name "Purple Cap" value tsStr
      ⟨⟨alSet st.leagues lid league2, st.rate_limits⟩, sess,
        some ("Player deleted from Purple Cap leaderboard.", FlashKind.success), "purple"⟩

/-- Python sorted(items, key: value, reverse=True) is a stable sort
descending by value; a stable insertion sort with the total relation
(second component of the right argument at most that of the left)
computes the same list, since any two stable sorts agree. -/
def sortDesc (l : List (String × Int)) : List (String × Int) :=
  List.insertionSort (fun a b => b.2 ≤ a.2) l

instance : IsTotal (String × Int) (fun a b => b.2 ≤ a.2) :=
  ⟨fun a b => le_total b.2 a.2⟩

instance : IsTrans (String × Int) (fun a b => b.2 ≤ a.2) :=
  ⟨fun _ _ _ h1 h2 => le_trans h2 h1⟩

/-- vercel.py orange (lines 209-225): the rendered leaderboard, none when
no valid league is selected. -/
def orange_view (st : Store) (sess : Session) : Option (List (String × Int)) :=
  (_get_league st sess).map (fun p => sortDesc p.2.orange)

/-- vercel.py purple (lines 228-244). -/
def purple_view (st : Store) (sess : Session) : Option (List (String × Int)) :=
  (_get_league st sess).map (fun p => sortDesc p.2.purple)

/-- One mutating HTTP request, for stating store-wide invariants. -/
inductive Request where
  | leagueCreate (league_name admin_password master_password : String)
  | leagueLogin (league_id role password : String)
  | leagueDelete (league_id password : String)
  | doLogout
  | orangeAdd (name value : String)
  | orangeEdit (name delta : String)
  | orangeAdjust (name delta : String)
  | orangeDelete (name : String)
  | purpleAdd (name value : String)
  | purpleEdit (name delta : String)
  | purpleAdjust (name delta : String)
  | purpleDelete (name : String)
  deriving DecidableEq

/-- Dispatch of one mutating request to its handler; ip, now and tsStr
are the request environment (client address, current time, formatted
current time). -/
def step (st : Store) (sess : Session) (ip : String) (now : Int) (tsStr : String) : Request → HResult
  | .leagueCreate n p m => league_create st sess n p m ip now
  | .leagueLogin lid r p => league_login st sess lid r p
  | .leagueDelete lid p => league_delete st sess lid p
  | .doLogout => logout st sess
  | .orangeAdd n v => orange_add st sess n v
  | .orangeEdit n d => orange_edit st sess n d
  | .orangeAdjust n d => orange_adjust st sess n d
  | .orangeDelete n => orange_delete st sess n tsStr
  | .purpleAdd n v => purple_add st sess n v
  | .purpleEdit n d => purple_edit st sess n d
  | .purpleAdjust n d => purple_adjust st sess n d
  | .purpleDelete n => purple_delete st sess n tsStr

/-- The delete-log bound of the spec: every league holds at most 67
log entries. -/
def logInvariant (st : Store) : Prop :=
  ∀ p ∈ st.leagues, p.2.delete_logs.length ≤ 67

/-! ### Lemmas about _slugify -/

theorem ws_not_slug {c : Char} (h : isPyWs c = true) : isSlugChar c = false := by
  revert h
  simp only [isPyWs, Bool.or_eq_true, decide_eq_true_eq]
  rintro (((((h | h) | h) | h) | h) | h) <;> subst h <;> decide

theorem slug_not_ws {c : Char} (h : isSlugChar c = true) : isPyWs c = false := by
  cases hw : isPyWs c
  · rfl
  · rw [ws_not_slug hw] at h
    cases h

theorem kept_not_ws_slug {c : Char} (h : isKeptChar c = true) (hw : isPyWs c = false) :
    isSlugChar c = true := by
  simp only [isKeptChar, Bool.or_eq_true] at h
  rcases h with ((h | h) | h) | h
  · simp [isSlugChar, h]
  · simp [isSlugChar, h]
  · rw [h] at hw
    cases hw
  · simp [isSlugChar, h]

theorem pyLowerChar_slug {c : Char} (h : isSlugChar c = true) : pyLowerChar c = c := by
  simp only [isSlugChar, Bool.or_eq_true, Bool.and_eq_true, decide_eq_true_eq] at h
  rw [pyLowerChar]
  have hcond : ('A' ≤ c && c ≤ 'Z') = false := by
    rcases h with (⟨h1, _⟩ | ⟨_, h2⟩) | h1
    · have : ¬ (c ≤ 'Z') := fun hc => absurd (le_trans h1 hc) (by decide)
      simp [this]
    · have : ¬ ('A' ≤ c) := fun hc => absurd (le_trans hc h2) (by decide)
      simp [this]
    · subst h1
      decide
  rw [hcond]
  rfl

theorem dropWhile_eq_self_of {p : Char → Bool} {l : List Char}
    (h : ∀ c ∈ l, p c = false) : l.dropWhile p = l := by
  cases l with
  | nil => rfl
  | cons x rest => simp [List.dropWhile_cons, h x (List.mem_cons_self x rest)]

theorem stripWs_eq_self {l : List Char} (h : ∀ c ∈ l, isPyWs c = false) : stripWs l = l := by
  rw [stripWs, dropWhile_eq_self_of h, dropWhile_eq_self_of, List.reverse_reverse]
  intro c hc
  exact h c (List.mem_reverse.mp hc)

theorem map_eq_self_of {f : Char → Char} {l : List Char} (h : ∀ c ∈ l, f c = c) :
    l.map f = l := by
  induction l with
  | nil => rfl
  | cons x rest ih =>
    rw [List.map_cons, h x (List.mem_cons_self x rest), ih]
    intro c hc
    exact h c (List.mem_cons_of_mem x hc)

theorem mem_collapseWsAux {c : Char} (l : List Char) :
    ∀ b, c ∈ collapseWsAux b l → c = '-' ∨ (c ∈ l ∧ isPyWs c = false) := by
  induction l with
  | nil =>
    intro b h
    rw [collapseWsAux] at h
    cases h
  | cons x rest ih =>
    intro b h
    rw [collapseWsAux] at h
    by_cases hx : isPyWs x = true
    · rw [if_pos hx] at h
      cases b with
      | true =>
        rcases ih true h with h2 | ⟨h2, h3⟩
        · exact Or.inl h2
        · exact Or.inr ⟨List.mem_cons_of_mem x h2, h3⟩
      | false =>
        rcases List.mem_cons.mp h with h2 | h2
        · exact Or.inl h2
        · rcases ih true h2 with h3 | ⟨h3, h4⟩
          · exact Or.inl h3
          · exact Or.inr ⟨List.mem_cons_of_mem x h3, h4⟩
    · rw [if_neg hx] at h
      rcases List.mem_cons.mp h with h2 | h2
      · subst h2
        exact Or.inr ⟨List.mem_cons_self c rest, Bool.not_eq_true _ ▸ hx⟩
      · rcases ih false h2 with h3 | ⟨h3, h4⟩
        · exact Or.inl h3
        · exact Or.inr ⟨List.mem_cons_of_mem x h3, h4⟩

theorem collapseWsAux_eq_self {l : List Char} (h : ∀ c ∈ l, isPyWs c = false) :
    collapseWsAux false l = l := by
  induction l with
  | nil => rfl
  | cons x rest ih =>
    rw [collapseWsAux, if_neg (by simp [h x (List.mem_cons_self x rest)]),
      ih (fun c hc => h c (List.mem_cons_of_mem x hc))]

theorem slugCore_mem {l : List Char} {c : Char} (h : c ∈ slugCore l) : isSlugChar c = true := by
  rw [slugCore] at h
  have h2 := List.take_subset 40 _ h
  rw [collapseWs] at h2
  rcases mem_collapseWsAux _ false h2 with h3 | ⟨h3, h4⟩
  · subst h3
    decide
  · exact kept_not_ws_slug (List.of_mem_filter h3) h4

theorem slugCore_length_le (l : List Char) : (slugCore l).length ≤ 40 := by
  rw [slugCore, List.length_take]
  exact min_le_left _ _

theorem slugCore_eq_self {l : List Char} (h : ∀ c ∈ l, isSlugChar c = true)
    (hlen : l.length ≤ 40) : slugCore l = l := by
  have hws : ∀ c ∈ l, isPyWs c = false := fun c hc => slug_not_ws (h c hc)
  rw [slugCore, stripWs_eq_self hws,
    map_eq_self_of (fun c hc => pyLowerChar_slug (h c hc))]
  rw [List.filter_eq_self.mpr]
  · rw [collapseWs, collapseWsAux_eq_self hws, List.take_of_length_le hlen]
  · intro c hc
    simp only [isKeptChar, Bool.or_eq_true]
    simp only [isSlugChar, Bool.or_eq_true] at h
    rcases h c hc with (h2 | h2) | h2
    · exact Or.inl (Or.inl (Or.inl h2))
    · exact Or.inl (Or.inl (Or.inr h2))
    · exact Or.inr h2

theorem slugify_of_core_nil {s : String} (hv : slugCore s.data = []) : _slugify s = "league" := by
  rw [_slugify]
  simp [hv]

theorem slugify_of_core_ne {s : String} (hv : slugCore s.data ≠ []) :
    _slugify s = String.mk (slugCore s.data) := by
  rw [_slugify]
  simp [hv]

/-- C7: for every input string, _slugify is deterministic, idempotent on
its own output, and its result is at most 40 characters long. -/
theorem slugify_det_idem_len :
    (∀ s t : String, s = t → _slugify s = _slugify t) ∧
    (∀ s : String, _slugify (_slugify s) = _slugify s) ∧
    (∀ s : String, (_slugify s).length ≤ 40) := by
  refine ⟨fun s t h => by rw [h], fun s => ?_, fun s => ?_⟩
  · by_cases hv : slugCore s.data = []
    · rw [slugify_of_core_nil hv]
      decide
    · rw [slugify_of_core_ne hv]
      have he : slugCore (String.mk (slugCore s.data)).data = slugCore s.data :=
        slugCore_eq_self (fun c hc => slugCore_mem hc) (slugCore_length_le _)
      rw [slugify_of_core_ne (by rw [he]; exact hv), he]
  · by_cases hv : slugCore s.data = []
    · rw [slugify_of_core_nil hv]
      decide
    · rw [slugify_of_core_ne hv]
      exact slugCore_length_le _

/-- Witness for C7 at a concrete input. -/
theorem slugify_det_idem_len_witness :
    _slugify "Premier League" = _slugify "Premier League" ∧
    _slugify (_slugify "Premier League") = _slugify "Premier League" ∧
    (_slugify "Premier League").length ≤ 40 :=
  ⟨slugify_det_idem_len.1 "Premier League" "Premier League" rfl,
   slugify_det_idem_len.2.1 "Premier League",
   slugify_det_idem_len.2.2 "Premier League"⟩

/-- C9: _slugify never returns the empty string; when the normalised form
is empty it falls back to the fixed slug "league", so two distinct names
can share a league_id and the second creation fails as a duplicate. -/
theorem slugify_fallback_spec :
    (∀ s : String, _slugify s ≠ "") ∧
    (∀ s : String, slugCore s.data = [] → _slugify s = "league") ∧
    _slugify "!!!" = "league" ∧
    (("!!" : String) ≠ "??" ∧ _slugify "!!" = _slugify "??") ∧
    (let st0 : Store := ⟨[], []⟩
     let sess0 : Session := ⟨none, false, false⟩
     let r1 := league_create st0 sess0 "!!" "pw1" "Iam@cirs" "1.1.1.1" 0
     let r2 := league_create r1.store sess0 "??" "pw2" "Iam@cirs" "1.1.1.1" 1
     r1.flash = some ("League created. Admin access granted.", FlashKind.success) ∧
     r2.flash = some ("League already exists. Choose a different name.", FlashKind.error) ∧
     r2.store = r1.store) := by
  refine ⟨fun s => ?_, fun s hv => slugify_of_core_nil hv, by decide, by decide, by decide⟩
  by_cases hv : slugCore s.data = []
  · rw [slugify_of_core_nil hv]
    decide
  · rw [slugify_of_core_ne hv]
    intro h
    exact hv (congrArg String.data h)

/-- Witness for C9 at a concrete input. -/
theorem slugify_fallback_spec_witness :
    _slugify "###" ≠ "" ∧ _slugify "###" = "league" :=
  ⟨slugify_fallback_spec.1 "###", slugify_fallback_spec.2.1 "###" (by decide)⟩

/-! ### Lemmas about the association-list dictionary operations -/

theorem alHas_eq_isSome {α : Type} (l : List (String × α)) (k : String) :
    alHas l k = (alGet l k).isSome := by
  induction l with
  | nil => rfl
  | cons x rest ih =>
    by_cases hx : x.1 == k
    · simp [alHas, alGet, List.find?_cons_of_pos, hx]
    · simp only [alHas, List.any_cons, hx, Bool.false_or]
      rw [alGet, List.find?_cons_of_neg _ (by simp [hx])]
      exact ih

theorem alGet_mem {α : Type} {l : List (String × α)} {k : String} {v : α}
    (h : alGet l k = some v) : (k, v) ∈ l := by
  rw [alGet] at h
  rcases Option.map_eq_some.mp h with ⟨q, hq, hv⟩
  have hmem := List.mem_of_find?_eq_some hq
  have hpred := List.find?_some hq
  have hk : q.1 = k := by simpa using hpred
  have : q = (k, v) := by
    cases q
    simp only at hk hv
    rw [hk, hv]
  rw [this] at hmem
  exact hmem


theorem alGet_mapSet_self {α : Type} (l : List (String × α)) (k : String) (v : α)
    (hb : alHas l k = true) :
    alGet (l.map (fun p => if p.1 == k then (k, v) else p)) k = some v := by
  induction l with
  | nil => cases hb
  | cons x rest ih =>
    by_cases hx : (x.1 == k) = true
    · rw [List.map_cons, if_pos hx, alGet, List.find?_cons_of_pos _ (by simp)]
      rfl
    · simp only [alHas, List.any_cons, hx, Bool.false_or] at hb
      rw [List.map_cons, if_neg hx, alGet, List.find?_cons_of_neg _ (by simpa using hx)]
      exact ih hb

theorem alGet_cons_pos {α : Type} {a k : String} (b : α) (rest : List (String × α))
    (hx : (a == k) = true) : alGet ((a, b) :: rest) k = some b := by
  simp [alGet, hx]

theorem alGet_cons_neg {α : Type} {a k : String} (b : α) (rest : List (String × α))
    (hx : (a == k) = false) : alGet ((a, b) :: rest) k = alGet rest k := by
  simp [alGet, hx]

theorem alGet_mapSet_ne {α : Type} (l : List (String × α)) (k k2 : String) (v : α)
    (hne : k2 ≠ k) :
    alGet (l.map (fun p => if p.1 == k then (k, v) else p)) k2 = alGet l k2 := by
  induction l with
  | nil => rfl
  | cons x rest ih =>
    obtain ⟨a, b⟩ := x
    by_cases hx : (a == k) = true
    · have hx2 : a = k := by simpa using hx
      rw [List.map_cons, if_pos hx, alGet_cons_neg _ _ (by simp [Ne.symm hne]),
        alGet_cons_neg _ _ (by simp [hx2, Ne.symm hne])]
      exact ih
    · rw [List.map_cons, if_neg hx]
      by_cases hx2 : (a == k2) = true
      · rw [alGet_cons_pos _ _ hx2, alGet_cons_pos _ _ hx2]
      · rw [alGet_cons_neg _ _ (by simpa using hx2), alGet_cons_neg _ _ (by simpa using hx2)]
        exact ih

theorem alGet_append_single_self {α : Type} (l : List (String × α)) (k : String) (v : α)
    (hb : alHas l k = false) : alGet (l ++ [(k, v)]) k = some v := by
  induction l with
  | nil => rw [List.nil_append, alGet_cons_pos _ _ (by simp)]
  | cons x rest ih =>
    obtain ⟨a, b⟩ := x
    simp only [alHas, List.any_cons, Bool.or_eq_false_iff] at hb
    rw [List.cons_append, alGet_cons_neg _ _ hb.1]
    exact ih hb.2

theorem alGet_append_single_ne {α : Type} (l : List (String × α)) (k k2 : String) (v : α)
    (hne : k2 ≠ k) : alGet (l ++ [(k, v)]) k2 = alGet l k2 := by
  induction l with
  | nil => rw [List.nil_append, alGet_cons_neg _ _ (by simp [Ne.symm hne])]
  | cons x rest ih =>
    obtain ⟨a, b⟩ := x
    by_cases hx2 : (a == k2) = true
    · rw [List.cons_append, alGet_cons_pos _ _ hx2, alGet_cons_pos _ _ hx2]
    · rw [List.cons_append, alGet_cons_neg _ _ (by simpa using hx2),
        alGet_cons_neg _ _ (by simpa using hx2)]
      exact ih

theorem alGet_alSet_self {α : Type} (l : List (String × α)) (k : String) (v : α) :
    alGet (alSet l k v) k = some v := by
  rw [alSet]
  by_cases hb : alHas l k = true
  · rw [if_pos hb]
    exact alGet_mapSet_self l k v hb
  · rw [if_neg hb]
    exact alGet_append_single_self l k v (by simpa using hb)

theorem alGet_alSet_ne {α : Type} (l : List (String × α)) (k k2 : String) (v : α)
    (hne : k2 ≠ k) : alGet (alSet l k v) k2 = alGet l k2 := by
  rw [alSet]
  by_cases hb : alHas l k = true
  · rw [if_pos hb]
    exact alGet_mapSet_ne l k k2 v hne
  · rw [if_neg hb]
    exact alGet_append_single_ne l k k2 v hne

theorem alGet_alUpdate_self {α : Type} (l : List (String × α)) (k : String) (f : α → α) :
    alGet (alUpdate l k f) k = (alGet l k).map f := by
  induction l with
  | nil => rfl
  | cons x rest ih =>
    obtain ⟨a, b⟩ := x
    by_cases hx : (a == k) = true
    · rw [alUpdate, List.map_cons, if_pos hx]
      rw [alGet_cons_pos _ _ hx, alGet_cons_pos _ _ hx]
      rfl
    · rw [alUpdate, List.map_cons, if_neg hx, alGet_cons_neg _ _ (by simpa using hx),
        alGet_cons_neg _ _ (by simpa using hx)]
      exact ih

theorem alGet_alUpdate_ne {α : Type} (l : List (String × α)) (k k2 : String) (f : α → α)
    (hne : k2 ≠ k) : alGet (alUpdate l k f) k2 = alGet l k2 := by
  induction l with
  | nil => rfl
  | cons x rest ih =>
    obtain ⟨a, b⟩ := x
    by_cases hx : (a == k) = true
    · have hx2 : a = k := by simpa using hx
      rw [alUpdate, List.map_cons, if_pos hx,
        alGet_cons_neg _ _ (by simp [hx2, Ne.symm hne]),
        alGet_cons_neg _ _ (by simp [hx2, Ne.symm hne])]
      exact ih
    · rw [alUpdate, List.map_cons, if_neg hx]
      by_cases hx2 : (a == k2) = true
      · rw [alGet_cons_pos _ _ hx2, alGet_cons_pos _ _ hx2]
      · rw [alGet_cons_neg _ _ (by simpa using hx2), alGet_cons_neg _ _ (by simpa using hx2)]
        exact ih

theorem alGet_alErase_self {α : Type} (l : List (String × α)) (k : String) :
    alGet (alErase l k) k = none := by
  induction l with
  | nil => rfl
  | cons x rest ih =>
    obtain ⟨a, b⟩ := x
    by_cases hx : (a == k) = true
    · rw [alErase, List.filter_cons_of_neg (by simp [hx])]
      exact ih
    · rw [alErase, List.filter_cons_of_pos (by simpa using hx),
        alGet_cons_neg _ _ (by simpa using hx)]
      exact ih

theorem alGet_alErase_ne {α : Type} (l : List (String × α)) (k k2 : String)
    (hne : k2 ≠ k) : alGet (alErase l k) k2 = alGet l k2 := by
  induction l with
  | nil => rfl
  | cons x rest ih =>
    obtain ⟨a, b⟩ := x
    by_cases hx : (a == k) = true
    · have hx2 : a = k := by simpa using hx
      rw [alErase, List.filter_cons_of_neg (by simp [hx]),
        alGet_cons_neg _ _ (by simp [hx2, Ne.symm hne])]
      exact ih
    · rw [alErase, List.filter_cons_of_pos (by simpa using hx)]
      by_cases hx2 : (a == k2) = true
      · rw [alGet_cons_pos _ _ hx2, alGet_cons_pos _ _ hx2]
      · rw [alGet_cons_neg _ _ (by simpa using hx2), alGet_cons_neg _ _ (by simpa using hx2)]
        exact ih

theorem mem_alSet {α : Type} {l : List (String × α)} {k : String} {v : α} {p : String × α}
    (h : p ∈ alSet l k v) : p ∈ l ∨ p = (k, v) := by
  rw [alSet] at h
  by_cases hb : alHas l k = true
  · rw [if_pos hb] at h
    rcases List.mem_map.mp h with ⟨q, hq, he⟩
    by_cases hx : (q.1 == k) = true
    · rw [if_pos hx] at he
      exact Or.inr he.symm
    · rw [if_neg hx] at he
      exact Or.inl (he ▸ hq)
  · rw [if_neg hb] at h
    rcases List.mem_append.mp h with h2 | h2
    · exact Or.inl h2
    · exact Or.inr (List.mem_singleton.mp h2)

theorem mem_alErase {α : Type} {l : List (String × α)} {k : String} {p : String × α}
    (h : p ∈ alErase l k) : p ∈ l :=
  List.mem_of_mem_filter h

/-! ### Claim theorems about the stat-mutation handlers -/

/-- C8: for each category, the edit handler and the adjust handler are
literal aliases: identical resulting store, session, flash and redirect
on every input. -/
theorem edit_adjust_alias :
    (∀ (st : Store) (sess : Session) (n d : String),
      orange_edit st sess n d = orange_adjust st sess n d) ∧
    (∀ (st : Store) (sess : Session) (n d : String),
      purple_edit st sess n d = purple_adjust st sess n d) :=
  ⟨fun _ _ _ _ => rfl, fun _ _ _ _ => rfl⟩

/-- C2: an admin add request with a selected league fails without touching
the store when the stripped name is blank, the value does not parse as an
integer, or the name is already present; otherwise it inserts the name
with the parsed value. -/
theorem add_spec (st : Store) (sess : Session) (lid : String) (lg : League) (n v : String)
    (hadm : sess.is_admin = true) (hlg : _get_league st sess = some (lid, lg)) :
    ((pyStrip n = "" ∨ (_parse_int v).1 = false) →
      orange_add st sess n v =
        ⟨st, sess, some ("Enter a valid player name and numeric runs.", FlashKind.error), "orange"⟩ ∧
      purple_add st sess n v =
        ⟨st, sess, some ("Enter a valid player name and numeric wickets.", FlashKind.error), "purple"⟩) ∧
    (pyStrip n ≠ "" → (_parse_int v).1 = true →
      ((alHas lg.orange (pyStrip n) = true →
        orange_add st sess n v =
          ⟨st, sess, some ("Player already exists. Use edit to adjust runs.", FlashKind.error), "orange"⟩) ∧
      (alHas lg.purple (pyStrip n) = true →
        purple_add st sess n v =
          ⟨st, sess, some ("Player already exists. Use edit to adjust wickets.", FlashKind.error), "purple"⟩) ∧
      (alHas lg.orange (pyStrip n) = false →
        orange_add st sess n v =
          ⟨⟨alSet st.leagues lid { lg with orange := alSet lg.orange (pyStrip n) (_parse_int v).2 },
              st.rate_limits⟩,
            sess, some ("Player added to Orange Cap leaderboard.", FlashKind.success), "orange"⟩) ∧
      (alHas lg.purple (pyStrip n) = false →
        purple_add st sess n v =
          ⟨⟨alSet st.leagues lid { lg with purple := alSet lg.purple (pyStrip n) (_parse_int v).2 },
              st.rate_limits⟩,
            sess, some ("Player added to Purple Cap leaderboard.", FlashKind.success), "purple"⟩))) := by
  constructor
  · intro h
    constructor
    · simp [orange_add, hadm, hlg, h]
    · simp [purple_add, hadm, hlg, h]
  · intro h1 h2
    refine ⟨fun hh => ?_, fun hh => ?_, fun hh => ?_, fun hh => ?_⟩
    · simp [orange_add, hadm, hlg, h1, h2, hh]
    · simp [purple_add, hadm, hlg, h1, h2, hh]
    · simp [orange_add, hadm, hlg, h1, h2, hh]
    · simp [purple_add, hadm, hlg, h1, h2, hh]

/-- Witness for C2: adding an existing player fails and leaves the store
unchanged. -/
theorem add_spec_witness :
    orange_add ⟨[("lg", ⟨"LG", "pw", [("Bob", 5)], [], []⟩)], []⟩ ⟨some "lg", true, false⟩ "Bob" "7" =
      ⟨⟨[("lg", ⟨"LG", "pw", [("Bob", 5)], [], []⟩)], []⟩, ⟨some "lg", true, false⟩,
        some ("Player already exists. Use edit to adjust runs.", FlashKind.error), "orange"⟩ :=
  ((add_spec ⟨[("lg", ⟨"LG", "pw", [("Bob", 5)], [], []⟩)], []⟩ ⟨some "lg", true, false⟩
      "lg" ⟨"LG", "pw", [("Bob", 5)], [], []⟩ "Bob" "7" rfl (by decide)).2
    (by decide) (by decide)).1 (by decide)

/-- C3: an admin edit or adjust request with a selected league fails when
the stripped name is blank, the delta does not parse, or the name is
absent; otherwise the stored value for that name changes by exactly the
integer delta (which may make it negative) and no other entry changes.
Adjust is covered through its literal equality with edit. -/
theorem edit_spec (st : Store) (sess : Session) (lid : String) (lg : League) (n d : String)
    (hadm : sess.is_admin = true) (hlg : _get_league st sess = some (lid, lg)) :
    (orange_adjust st sess n d = orange_edit st sess n d) ∧
    (purple_adjust st sess n d = purple_edit st sess n d) ∧
    ((pyStrip n = "" ∨ (_parse_int d).1 = false) →
      orange_edit st sess n d =
        ⟨st, sess, some ("Enter a valid player name and numeric runs to add.", FlashKind.error), "orange"⟩ ∧
      purple_edit st sess n d =
        ⟨st, sess, some ("Enter a valid player name and numeric wickets to add.", FlashKind.error), "purple"⟩) ∧
    (pyStrip n ≠ "" → (_parse_int d).1 = true →
      ((alHas lg.orange (pyStrip n) = false →
        orange_edit st sess n d =
          ⟨st, sess, some ("Player not found. Add them first.", FlashKind.error), "orange"⟩) ∧
      (alHas lg.purple (pyStrip n) = false →
        purple_edit st sess n d =
          ⟨st, sess, some ("Player not found. Add them first.", FlashKind.error), "purple"⟩) ∧
      (∀ old : Int, alGet lg.orange (pyStrip n) = some old →
        alHas lg.orange (pyStrip n) = true →
        orange_edit st sess n d =
          ⟨⟨alSet st.leagues lid
              { lg with orange := alUpdate lg.orange (pyStrip n) (fun w => w + (_parse_int d).2) },
              st.rate_limits⟩,
            sess, some ("Orange Cap stats updated.", FlashKind.success), "orange"⟩ ∧
        alGet (alUpdate lg.orange (pyStrip n) (fun w => w + (_parse_int d).2)) (pyStrip n) =
          some (old + (_parse_int d).2) ∧
        (∀ k2, k2 ≠ pyStrip n →
          alGet (alUpdate lg.orange (pyStrip n) (fun w => w + (_parse_int d).2)) k2 =
            alGet lg.orange k2)) ∧
      (∀ old : Int, alGet lg.purple (pyStrip n) = some old →
        alHas lg.purple (pyStrip n) = true →
        purple_edit st sess n d =
          ⟨⟨alSet st.leagues lid
              { lg with purple := alUpdate lg.purple (pyStrip n) (fun w => w + (_parse_int d).2) },
              st.rate_limits⟩,
            sess, some ("Purple Cap stats updated.", FlashKind.success), "purple"⟩ ∧
        alGet (alUpdate lg.purple (pyStrip n) (fun w => w + (_parse_int d).2)) (pyStrip n) =
          some (old + (_parse_int d).2) ∧
        (∀ k2, k2 ≠ pyStrip n →
          alGet (alUpdate lg.purple (pyStrip n) (fun w => w + (_parse_int d).2)) k2 =
            alGet lg.purple k2)))) := by
  refine ⟨rfl, rfl, fun h => ?_, fun h1 h2 => ⟨fun hh => ?_, fun hh => ?_, fun old hold hh => ?_, fun old hold hh => ?_⟩⟩
  · constructor
    · simp [orange_edit, hadm, hlg, h]
    · simp [purple_edit, hadm, hlg, h]
  · simp [orange_edit, hadm, hlg, h1, h2, hh]
  · simp [purple_edit, hadm, hlg, h1, h2, hh]
  · refine ⟨by simp [orange_edit, hadm, hlg, h1, h2, hh], ?_, fun k2 hk2 => ?_⟩
    · rw [alGet_alUpdate_self, hold]
      rfl
    · exact alGet_alUpdate_ne _ _ _ _ hk2
  · refine ⟨by simp [purple_edit, hadm, hlg, h1, h2, hh], ?_, fun k2 hk2 => ?_⟩
    · rw [alGet_alUpdate_self, hold]
      rfl
    · exact alGet_alUpdate_ne _ _ _ _ hk2

/-- Witness for C3: editing an existing player by -9 updates only that
entry. -/
theorem edit_spec_witness :
    orange_edit ⟨[("lg", ⟨"LG", "pw", [("Ann", 3), ("Bob", 5)], [], []⟩)], []⟩
        ⟨some "lg", true, false⟩ "Bob" "-9" =
      ⟨⟨[("lg", ⟨"LG", "pw", [("Ann", 3), ("Bob", -4)], [], []⟩)], []⟩, ⟨some "lg", true, false⟩,
        some ("Orange Cap stats updated.", FlashKind.success), "orange"⟩ := by
  have h := (((edit_spec ⟨[("lg", ⟨"LG", "pw", [("Ann", 3), ("Bob", 5)], [], []⟩)], []⟩
      ⟨some "lg", true, false⟩ "lg" ⟨"LG", "pw", [("Ann", 3), ("Bob", 5)], [], []⟩ "Bob" "-9"
      rfl (by decide)).2.2.2 (by decide) (by decide)).2.2.1 5 (by decide) (by decide)).1
  rw [h]
  decide

/-! ### Lemmas about the delete log and the 67-entry cap -/

theorem append_delete_log_len (lg : League) (p c : String) (v : Int) (ts : String) :
    (_append_delete_log lg p c v ts).delete_logs.length ≤ 67 := by
  simp only [_append_delete_log]
  split
  next h => simp only [List.length_drop]; omega
  next h => omega

theorem append_delete_log_frame (lg : League) (p c : String) (v : Int) (ts : String) :
    (_append_delete_log lg p c v ts).orange = lg.orange ∧
    (_append_delete_log lg p c v ts).purple = lg.purple ∧
    (_append_delete_log lg p c v ts).name = lg.name ∧
    (_append_delete_log lg p c v ts).admin_password = lg.admin_password :=
  ⟨rfl, rfl, rfl, rfl⟩

theorem append_delete_log_small (lg : League) (p c : String) (v : Int) (ts : String)
    (h : lg.delete_logs.length < 67) :
    (_append_delete_log lg p c v ts).delete_logs = lg.delete_logs ++ [⟨p, c, v, ts⟩] := by
  simp only [_append_delete_log]
  rw [if_neg]
  simp only [List.length_append, List.length_cons, List.length_nil]
  omega

theorem append_delete_log_full (lg : League) (p c : String) (v : Int) (ts : String)
    (h : lg.delete_logs.length = 67) :
    (_append_delete_log lg p c v ts).delete_logs = lg.delete_logs.drop 1 ++ [⟨p, c, v, ts⟩] := by
  simp only [_append_delete_log]
  rw [if_pos]
  · have h68 : (lg.delete_logs ++ [(⟨p, c, v, ts⟩ : LogEntry)]).length = 68 := by
      simp [h]
    rw [h68]
    cases hA : lg.delete_logs with
    | nil => rw [hA] at h; cases h
    | cons x rest =>
      simp
  · simp [h]

theorem _get_league_some {st : Store} {sess : Session} {lid : String} {lg : League}
    (h : _get_league st sess = some (lid, lg)) :
    alGet st.leagues lid = some lg ∧ sess.league_id = some lid := by
  rw [_get_league] at h
  cases hs : sess.league_id with
  | none => rw [hs] at h; cases h
  | some lid0 =>
    rw [hs] at h
    dsimp only at h
    by_cases he : lid0 = ""
    · rw [if_pos he] at h; cases h
    · rw [if_neg he] at h
      cases hg : alGet st.leagues lid0 with
      | none => rw [hg] at h; cases h
      | some lg0 =>
        rw [hg] at h
        injection h with h2
        injection h2 with h3 h4
        subst h3
        subst h4
        exact ⟨hg, hs ▸ rfl⟩

theorem inv_alSet_league {st : Store} {lid : String} {lg2 : League} (rl : List (String × Int))
    (hinv : logInvariant st) (hlen : lg2.delete_logs.length ≤ 67) :
    logInvariant ⟨alSet st.leagues lid lg2, rl⟩ := by
  intro q hq
  rcases mem_alSet hq with h | h
  · exact hinv q h
  · rw [h]
    exact hlen

theorem master_nonempty_if (m : String) :
    (if MASTER_ADMIN_PASSWORD = "" then "" else m) = m := by
  rw [if_neg]
  decide

theorem league_create_inv (st : Store) (sess : Session) (n p m ip : String) (now : Int)
    (hinv : logInvariant st) : logInvariant (league_create st sess n p m ip now).store := by
  simp only [league_create, master_nonempty_if]
  by_cases c1 : pyStrip n = "" ∨ pyStrip p = ""
  · rw [if_pos c1]
    exact hinv
  · rw [if_neg c1]
    by_cases c2 : pyStrip m ≠ "" ∧ pyStrip m ≠ MASTER_ADMIN_PASSWORD
    · rw [if_pos c2]
      exact hinv
    · rw [if_neg c2]
      by_cases c3 : pyStrip m = "" ∧ rateLimited st ip now = true
      · rw [if_pos c3]
        exact hinv
      · rw [if_neg c3]
        by_cases c4 : alHas st.leagues (_slugify (pyStrip n)) = true
        · rw [if_pos c4]
          exact hinv
        · rw [if_neg c4]
          intro q hq
          rcases mem_alSet hq with h | h
          · exact hinv q h
          · rw [h]
            simp

theorem league_login_store (st : Store) (sess : Session) (a b c : String) :
    (league_login st sess a b c).store = st := by
  rw [league_login]
  cases alGet st.leagues a with
  | none => rfl
  | some lg =>
    dsimp only
    split
    · split <;> rfl
    · rfl

theorem league_delete_inv (st : Store) (sess : Session) (a b : String)
    (hinv : logInvariant st) : logInvariant (league_delete st sess a b).store := by
  rw [league_delete]
  cases hg : alGet st.leagues a with
  | none => exact hinv
  | some lg =>
    dsimp only
    split
    · exact hinv
    · intro p hp
      exact hinv p (mem_alErase hp)

theorem orange_add_inv (st : Store) (sess : Session) (n v : String)
    (hinv : logInvariant st) : logInvariant (orange_add st sess n v).store := by
  simp only [orange_add]
  split
  · exact hinv
  · cases hg : _get_league st sess with
    | none => exact hinv
    | some q =>
      obtain ⟨lid, lg⟩ := q
      dsimp only
      split
      · exact hinv
      · split
        · exact hinv
        · exact inv_alSet_league _ hinv (hinv (lid, lg) (alGet_mem (_get_league_some hg).1))

theorem purple_add_inv (st : Store) (sess : Session) (n v : String)
    (hinv : logInvariant st) : logInvariant (purple_add st sess n v).store := by
  simp only [purple_add]
  split
  · exact hinv
  · cases hg : _get_league st sess with
    | none => exact hinv
    | some q =>
      obtain ⟨lid, lg⟩ := q
      dsimp only
      split
      · exact hinv
      · split
        · exact hinv
        · exact inv_alSet_league _ hinv (hinv (lid, lg) (alGet_mem (_get_league_some hg).1))

theorem orange_edit_inv (st : Store) (sess : Session) (n d : String)
    (hinv : logInvariant st) : logInvariant (orange_edit st sess n d).store := by
  simp only [orange_edit]
  split
  · exact hinv
  · cases hg : _get_league st sess with
    | none => exact hinv
    | some q =>
      obtain ⟨lid, lg⟩ := q
      dsimp only
      split
      · exact hinv
      · split
        · exact hinv
        · exact inv_alSet_league _ hinv (hinv (lid, lg) (alGet_mem (_get_league_some hg).1))

theorem purple_edit_inv (st : Store) (sess : Session) (n d : String)
    (hinv : logInvariant st) : logInvariant (purple_edit st sess n d).store := by
  simp only [purple_edit]
  split
  · exact hinv
  · cases hg : _get_league st sess with
    | none => exact hinv
    | some q =>
      obtain ⟨lid, lg⟩ := q
      dsimp only
      split
      · exact hinv
      · split
        · exact hinv
        · exact inv_alSet_league _ hinv (hinv (lid, lg) (alGet_mem (_get_league_some hg).1))

theorem orange_delete_inv (st : Store) (sess : Session) (n ts : String)
    (hinv : logInvariant st) : logInvariant (orange_delete st sess n ts).store := by
  simp only [orange_delete]
  split
  · exact hinv
  · cases hg : _get_league st sess with
    | none => exact hinv
    | some q =>
      obtain ⟨lid, lg⟩ := q
      dsimp only
      split
      · exact hinv
      · exact inv_alSet_league _ hinv (append_delete_log_len _ _ _ _ _)

theorem purple_delete_inv (st : Store) (sess : Session) (n ts : String)
    (hinv : logInvariant st) : logInvariant (purple_delete st sess n ts).store := by
  simp only [purple_delete]
  split
  · exact hinv
  · cases hg : _get_league st sess with
    | none => exact hinv
    | some q =>
      obtain ⟨lid, lg⟩ := q
      dsimp only
      split
      · exact hinv
      · exact inv_alSet_league _ hinv (append_delete_log_len _ _ _ _ _)

/-- C4: deleting an existing player removes its entry from that category
stats map and appends exactly one log entry with the pre-deletion value;
the log is trimmed to the most recent 67 entries (oldest evicted first),
and a delete-log length of at most 67 is preserved by every operation. -/
theorem delete_log_spec :
    (∀ (st : Store) (sess : Session) (lid : String) (lg : League) (n ts : String) (old : Int),
      sess.is_admin = true → _get_league st sess = some (lid, lg) → pyStrip n ≠ "" →
      alGet lg.orange (pyStrip n) = some old →
      orange_delete st sess n ts =
        ⟨⟨alSet st.leagues lid
            (_append_delete_log { lg with orange := alErase lg.orange (pyStrip n) }
              (pyStrip n) "Orange Cap" old ts),
            st.rate_limits⟩, sess,
          some ("Player deleted from Orange Cap leaderboard.", FlashKind.success), "orange"⟩) ∧
    (∀ (st : Store) (sess : Session) (lid : String) (lg : League) (n ts : String) (old : Int),
      sess.is_admin = true → _get_league st sess = some (lid, lg) → pyStrip n ≠ "" →
      alGet lg.purple (pyStrip n) = some old →
      purple_delete st sess n ts =
        ⟨⟨alSet st.leagues lid
            (_append_delete_log { lg with purple := alErase lg.purple (pyStrip n) }
              (pyStrip n) "Purple Cap" old ts),
            st.rate_limits⟩, sess,
          some ("Player deleted from Purple Cap leaderboard.", FlashKind.success), "purple"⟩) ∧
    (∀ (l : List (String × Int)) (k : String), alGet (alErase l k) k = none) ∧
    (∀ (lg : League) (p c : String) (v : Int) (ts : String),
      (_append_delete_log lg p c v ts).delete_logs.length ≤ 67 ∧
      (lg.delete_logs.length < 67 →
        (_append_delete_log lg p c v ts).delete_logs = lg.delete_logs ++ [⟨p, c, v, ts⟩]) ∧
      (lg.delete_logs.length = 67 →
        (_append_delete_log lg p c v ts).delete_logs =
          lg.delete_logs.drop 1 ++ [⟨p, c, v, ts⟩])) ∧
    (∀ (st : Store) (sess : Session) (ip : String) (now : Int) (ts : String) (req : Request),
      logInvariant st → logInvariant (step st sess ip now ts req).store) := by
  refine ⟨?_, ?_, fun l k => alGet_alErase_self l k, ?_, ?_⟩
  · intro st sess lid lg n ts old hadm hlg hname hold
    have hh : alHas lg.orange (pyStrip n) = true := by
      rw [alHas_eq_isSome, hold]
      rfl
    simp [orange_delete, hadm, hlg, hname, hh, hold]
  · intro st sess lid lg n ts old hadm hlg hname hold
    have hh : alHas lg.purple (pyStrip n) = true := by
      rw [alHas_eq_isSome, hold]
      rfl
    simp [purple_delete, hadm, hlg, hname, hh, hold]
  · intro lg p c v ts
    exact ⟨append_delete_log_len lg p c v ts,
      fun h => append_delete_log_small lg p c v ts h,
      fun h => append_delete_log_full lg p c v ts h⟩
  · intro st sess ip now ts req hinv
    cases req with
    | leagueCreate n p m => exact league_create_inv st sess n p m ip now hinv
    | leagueLogin lid r pw =>
      rw [step, league_login_store]
      exact hinv
    | leagueDelete lid pw => exact league_delete_inv st sess lid pw hinv
    | doLogout => exact hinv
    | orangeAdd n v => exact orange_add_inv st sess n v hinv
    | orangeEdit n d => exact orange_edit_inv st sess n d hinv
    | orangeAdjust n d => exact orange_edit_inv st sess n d hinv
    | orangeDelete n => exact orange_delete_inv st sess n ts hinv
    | purpleAdd n v => exact purple_add_inv st sess n v hinv
    | purpleEdit n d => exact purple_edit_inv st sess n d hinv
    | purpleAdjust n d => exact purple_edit_inv st sess n d hinv
    | purpleDelete n => exact purple_delete_inv st sess n ts hinv

/-- Witness for C4: one concrete deletion removes the entry and logs it. -/
theorem delete_log_spec_witness :
    orange_delete ⟨[("lg", ⟨"LG", "pw", [("Bob", 5)], [], []⟩)], []⟩
        ⟨some "lg", true, false⟩ "Bob" "t1" =
      ⟨⟨[("lg", ⟨"LG", "pw", [], [], [⟨"Bob", "Orange Cap", 5, "t1"⟩]⟩)], []⟩,
        ⟨some "lg", true, false⟩,
        some ("Player deleted from Orange Cap leaderboard.", FlashKind.success), "orange"⟩ := by
  have h := delete_log_spec.1 ⟨[("lg", ⟨"LG", "pw", [("Bob", 5)], [], []⟩)], []⟩
    ⟨some "lg", true, false⟩ "lg" ⟨"LG", "pw", [("Bob", 5)], [], []⟩ "Bob" "t1" 5
    rfl (by decide) (by decide) (by decide)
  rw [h]
  decide

/-! ### Lemmas about the leaderboard sort -/

theorem filter_orderedInsert (v : Int) (x : String × Int) (l : List (String × Int)) :
    (List.orderedInsert (fun a b => b.2 ≤ a.2) x l).filter (fun p => p.2 == v) =
      if x.2 = v then x :: l.filter (fun p => p.2 == v)
      else l.filter (fun p => p.2 == v) := by
  induction l with
  | nil =>
    simp only [List.orderedInsert]
    by_cases hx : x.2 = v <;> simp [hx]
  | cons b l ih =>
    simp only [List.orderedInsert]
    by_cases hr : b.2 ≤ x.2
    · rw [if_pos hr]
      by_cases hx : x.2 = v <;> by_cases hb : b.2 = v <;>
        simp [List.filter_cons, hx, hb]
    · rw [if_neg hr]
      by_cases hx : x.2 = v
      · have hb : b.2 ≠ v := fun hb => hr (le_of_eq (hb.trans hx.symm))
        simp [List.filter_cons, hx, hb, ih]
      · by_cases hb : b.2 = v <;> simp [List.filter_cons, hx, hb, ih]

theorem filter_sortDesc (l : List (String × Int)) (v : Int) :
    (sortDesc l).filter (fun p => p.2 == v) = l.filter (fun p => p.2 == v) := by
  induction l with
  | nil => rfl
  | cons x l ih =>
    rw [sortDesc, List.insertionSort, filter_orderedInsert]
    by_cases hx : x.2 = v
    · rw [if_pos hx, ← sortDesc, ih, List.filter_cons, if_pos (by simp [hx])]
    · rw [if_neg hx, ← sortDesc, ih, List.filter_cons, if_neg (by simp [hx])]

/-- C5: the leaderboard views sort all entries of the stats map descending
by metric value; the sort is a permutation, it is descending, and ties keep
the original insertion order (the entries of any fixed value appear in
their original order); the example from the spec evaluates as stated. -/
theorem leaderboard_sorted_spec :
    (∀ (st : Store) (sess : Session),
      orange_view st sess = (_get_league st sess).map (fun p => sortDesc p.2.orange)) ∧
    (∀ (st : Store) (sess : Session),
      purple_view st sess = (_get_league st sess).map (fun p => sortDesc p.2.purple)) ∧
    (∀ l : List (String × Int), List.Perm (sortDesc l) l) ∧
    (∀ l : List (String × Int), (sortDesc l).Pairwise (fun a b => b.2 ≤ a.2)) ∧
    (∀ (l : List (String × Int)) (v : Int),
      (sortDesc l).filter (fun p => p.2 == v) = l.filter (fun p => p.2 == v)) ∧
    sortDesc [("A", 10), ("B", 30), ("C", 20)] = [("B", 30), ("C", 20), ("A", 10)] := by
  refine ⟨fun st sess => rfl, fun st sess => rfl, fun l => ?_, fun l => ?_,
    fun l v => filter_sortDesc l v, by decide⟩
  · exact List.perm_insertionSort _ l
  · exact List.sorted_insertionSort _ l

/-- C6 counterexample: league_create mutates the persistent store although
the requesting session has is_admin = false, so not every mutating route
requires is_admin. -/
theorem mutate_without_admin_counterexample :
    (⟨none, false, false⟩ : Session).is_admin = false ∧
    (league_create ⟨[], []⟩ ⟨none, false, false⟩ "My League" "pw" "" "1.2.3.4" 5000).store ≠
      (⟨[], []⟩ : Store) ∧
    (league_create ⟨[], []⟩ ⟨none, false, false⟩ "My League" "pw" "" "1.2.3.4" 5000).flash =
      some ("League created. Admin access granted.", FlashKind.success) := by
  decide

/-- C6 amended: every stats-mutating route (add, edit, adjust, delete on
both categories) requires is_admin; with is_admin false it leaves store
and session unchanged and redirects to the read view of the category with an
authorization flash.  The league lifecycle routes are guarded by form
passwords instead of the session flag. -/
theorem admin_guard_spec (st : Store) (sess : Session) (n v : String)
    (h : sess.is_admin = false) :
    orange_add st sess n v =
      ⟨st, sess, some ("Admin access required for this action.", FlashKind.error), "orange"⟩ ∧
    orange_edit st sess n v =
      ⟨st, sess, some ("Admin access required for this action.", FlashKind.error), "orange"⟩ ∧
    orange_adjust st sess n v =
      ⟨st, sess, some ("Admin access required for this action.", FlashKind.error), "orange"⟩ ∧
    orange_delete st sess n v =
      ⟨st, sess, some ("Admin access required for this action.", FlashKind.error), "orange"⟩ ∧
    purple_add st sess n v =
      ⟨st, sess, some ("Admin access required for this action.", FlashKind.error), "purple"⟩ ∧
    purple_edit st sess n v =
      ⟨st, sess, some ("Admin access required for this action.", FlashKind.error), "purple"⟩ ∧
    purple_adjust st sess n v =
      ⟨st, sess, some ("Admin access required for this action.", FlashKind.error), "purple"⟩ ∧
    purple_delete st sess n v =
      ⟨st, sess, some ("Admin access required for this action.", FlashKind.error), "purple"⟩ := by
  refine ⟨?_, ?_, ?_, ?_, ?_, ?_, ?_, ?_⟩
  · simp [orange_add, h]
  · simp [orange_edit, h]
  · simp [orange_adjust, h]
  · simp [orange_delete, h]
  · simp [purple_add, h]
  · simp [purple_edit, h]
  · simp [purple_adjust, h]
  · simp [purple_delete, h]

/-- Witness for the amended C6 at a concrete non-admin session. -/
theorem admin_guard_spec_witness :
    orange_add ⟨[], []⟩ ⟨none, false, false⟩ "A" "1" =
      ⟨⟨[], []⟩, ⟨none, false, false⟩,
        some ("Admin access required for this action.", FlashKind.error), "orange"⟩ :=
  (admin_guard_spec ⟨[], []⟩ ⟨none, false, false⟩ "A" "1" rfl).1

/-- C1 counterexample: with a recorded last-creation timestamp of exactly 0
(falsy in Python) and now = 100, the request is 100 seconds after the
recorded timestamp — within the hour window — yet creation succeeds
instead of failing with the rate-limit error. -/
theorem league_create_rate_zero_counterexample :
    alGet (⟨[], [("9.9.9.9", 0)]⟩ : Store).rate_limits "9.9.9.9" = some 0 ∧
    ((100 : Int) - 0 < 3600) ∧
    (league_create ⟨[], [("9.9.9.9", 0)]⟩ ⟨none, false, false⟩
        "Fresh League" "pw" "" "9.9.9.9" 100).flash =
      some ("League created. Admin access granted.", FlashKind.success) := by
  decide

/-- C1 amended: league_create fails on blank name or admin password, on a
wrong nonempty master password, on a recorded nonzero last-creation
timestamp less than 3600 seconds old when no master password is given,
and on a duplicate derived slug; otherwise it inserts the new league with
empty stat maps and empty delete log, and records the IP timestamp
exactly when no master password was used. -/
theorem league_create_spec (st : Store) (sess : Session) (n p m ip : String) (now : Int) :
    ((pyStrip n = "" ∨ pyStrip p = "") →
      league_create st sess n p m ip now =
        ⟨st, sess, some ("Enter a league name and admin password.", FlashKind.error), "home"⟩) ∧
    (pyStrip n ≠ "" → pyStrip p ≠ "" → pyStrip m ≠ "" → pyStrip m ≠ MASTER_ADMIN_PASSWORD →
      league_create st sess n p m ip now =
        ⟨st, sess, some ("Master password is incorrect.", FlashKind.error), "home"⟩) ∧
    (pyStrip n ≠ "" → pyStrip p ≠ "" → pyStrip m = "" →
      ∀ ts : Int, alGet st.rate_limits ip = some ts → ts ≠ 0 → now - ts < 3600 →
      league_create st sess n p m ip now =
        ⟨st, sess,
          some ("League creation limited to 1 per hour. Try again later.", FlashKind.error),
          "home"⟩) ∧
    (pyStrip n ≠ "" → pyStrip p ≠ "" →
      (pyStrip m = "" ∨ pyStrip m = MASTER_ADMIN_PASSWORD) →
      (pyStrip m = "" → rateLimited st ip now = false) →
      alHas st.leagues (_slugify (pyStrip n)) = true →
      league_create st sess n p m ip now =
        ⟨st, sess, some ("League already exists. Choose a different name.", FlashKind.error),
          "home"⟩) ∧
    (pyStrip n ≠ "" → pyStrip p ≠ "" →
      (pyStrip m = "" ∨ pyStrip m = MASTER_ADMIN_PASSWORD) →
      (pyStrip m = "" → rateLimited st ip now = false) →
      alHas st.leagues (_slugify (pyStrip n)) = false →
      (league_create st sess n p m ip now).store.leagues =
        alSet st.leagues (_slugify (pyStrip n)) ⟨pyStrip n, pyStrip p, [], [], []⟩ ∧
      (league_create st sess n p m ip now).flash =
        some ("League created. Admin access granted.", FlashKind.success) ∧
      (league_create st sess n p m ip now).redirect = "orange" ∧
      (league_create st sess n p m ip now).session =
        ⟨some (_slugify (pyStrip n)), true, decide (pyStrip m ≠ "")⟩ ∧
      (pyStrip m = "" →
        (league_create st sess n p m ip now).store.rate_limits = alSet st.rate_limits ip now) ∧
      (pyStrip m ≠ "" →
        (league_create st sess n p m ip now).store.rate_limits = st.rate_limits)) := by
  refine ⟨fun h => by simp [league_create, h], fun h1 h2 h3 h4 => ?_, fun h1 h2 hm ts hts ht0 hlt => ?_,
    fun h1 h2 hor hrl hhas => ?_, fun h1 h2 hor hrl hhas => ?_⟩
  · simp [league_create, master_nonempty_if, h1, h2, h3, h4]
  · have hrate : rateLimited st ip now = true := by
      simp [rateLimited, hts, ht0, hlt]
    simp [league_create, master_nonempty_if, h1, h2, hm, hrate]
  · rcases hor with hm | hM
    · simp [league_create, master_nonempty_if, h1, h2, hm, hrl hm, hhas]
    · have hne : pyStrip m ≠ "" := by
        rw [hM]
        decide
      simp [league_create, master_nonempty_if, MASTER_ADMIN_PASSWORD, h1, h2, hM, hne, hhas]
  · rcases hor with hm | hM
    · refine ⟨?_, ?_, ?_, ?_, fun _ => ?_, fun hc => absurd hm hc⟩ <;>
        simp [league_create, master_nonempty_if, h1, h2, hm, hrl hm, hhas]
    · have hne : pyStrip m ≠ "" := by
        rw [hM]
        decide
      refine ⟨?_, ?_, ?_, ?_, fun hc => absurd hc hne, fun _ => ?_⟩ <;>
        simp [league_create, master_nonempty_if, MASTER_ADMIN_PASSWORD, h1, h2, hM, hne, hhas]

/-- Witness for the amended C1: a concrete successful creation without a
master password records the IP timestamp. -/
theorem league_create_spec_witness :
    (league_create ⟨[], []⟩ ⟨none, false, false⟩ "My League" "pw" "" "ip1" 50).flash =
      some ("League created. Admin access granted.", FlashKind.success) ∧
    (league_create ⟨[], []⟩ ⟨none, false, false⟩ "My League" "pw" "" "ip1" 50).store.rate_limits =
      alSet ([] : List (String × Int)) "ip1" 50 :=
  let h := (league_create_spec ⟨[], []⟩ ⟨none, false, false⟩ "My League" "pw" "" "ip1" 50).2.2.2.2
    (by decide) (by decide) (Or.inl (by decide)) (fun _ => rfl) (by decide)
  ⟨h.2.1, h.2.2.2.2.1 (by decide)⟩

/-- C10: a failed admin login removes only league_id from the session and
leaves the is_admin and is_master flags as they were; a successful viewer
login sets league_id and both flags to false; and without a valid selected
league no stats handler changes the store, even when is_admin is
stale-true. -/
theorem login_session_spec :
    (∀ (st : Store) (sess : Session) (lid pw : String) (lg : League),
      alGet st.leagues lid = some lg → pw ≠ lg.admin_password → pw ≠ MASTER_ADMIN_PASSWORD →
      league_login st sess lid "admin" pw =
        ⟨st, ⟨none, sess.is_admin, sess.is_master⟩,
          some ("Incorrect Password", FlashKind.error), "home"⟩) ∧
    (∀ (st : Store) (sess : Session) (lid role pw : String) (lg : League),
      alGet st.leagues lid = some lg → role ≠ "admin" →
      league_login st sess lid role pw =
        ⟨st, ⟨some lid, false, false⟩,
          some ("User access granted (view-only).", FlashKind.info), "orange"⟩) ∧
    (∀ (st : Store) (sess : Session) (n v : String), _get_league st sess = none →
      (orange_add st sess n v).store = st ∧ (orange_edit st sess n v).store = st ∧
      (orange_adjust st sess n v).store = st ∧ (orange_delete st sess n v).store = st ∧
      (purple_add st sess n v).store = st ∧ (purple_edit st sess n v).store = st ∧
      (purple_adjust st sess n v).store = st ∧ (purple_delete st sess n v).store = st) := by
  refine ⟨?_, ?_, ?_⟩
  · intro st sess lid pw lg hg hp hM
    simp [league_login, hg, hp, hM]
  · intro st sess lid role pw lg hg hr
    simp [league_login, hg, hr]
  · intro st sess n v hg
    refine ⟨?_, ?_, ?_, ?_, ?_, ?_, ?_, ?_⟩
    · simp only [orange_add, hg]
      split <;> rfl
    · simp only [orange_edit, hg]
      split <;> rfl
    · simp only [orange_adjust, hg]
      split <;> rfl
    · simp only [orange_delete, hg]
      split <;> rfl
    · simp only [purple_add, hg]
      split <;> rfl
    · simp only [purple_edit, hg]
      split <;> rfl
    · simp only [purple_adjust, hg]
      split <;> rfl
    · simp only [purple_delete, hg]
      split <;> rfl

/-- Witness for C10 at a concrete failed admin login with stale flags. -/
theorem login_session_spec_witness :
    league_login ⟨[("lg", ⟨"LG", "pw", [], [], []⟩)], []⟩ ⟨some "x", true, true⟩
        "lg" "admin" "bad" =
      ⟨⟨[("lg", ⟨"LG", "pw", [], [], []⟩)], []⟩, ⟨none, true, true⟩,
        some ("Incorrect Password", FlashKind.error), "home"⟩ :=
  login_session_spec.1 ⟨[("lg", ⟨"LG", "pw", [], [], []⟩)], []⟩ ⟨some "x", true, true⟩
    "lg" "bad" ⟨"LG", "pw", [], [], []⟩ (by decide) (by decide) (by decide)
